import Mathlib

/-!
Verification of the Copilot device-flow authentication core
(`codex-rs/core/src/copilot.rs` and `codex-rs/core/src/copilot_token_store.rs`).

The Rust code is shallowly embedded:

* JSON values are modelled by the `Json` inductive (the fragment the code
  inspects: null, strings, unsigned 64-bit numbers, objects).
* `CopilotToken` mirrors the Rust struct field for field, with `u64`
  replaced by `Nat` (all arithmetic on it is comparison only, no overflow).
* Rust string operations (`split`, `split_once`, `starts_with`,
  `str::parse::<u64>`) are embedded as executable functions on `List Char`.
* The file-backed store is modelled by explicit state passing: the file is
  `Option Json` (content of `copilot_token.json` when present), each
  operation returns its result together with the new file state and the
  number of file deletions it performed.
* The asynchronous device-flow handler `handle_copilot_auth` is modelled as
  a deterministic function of a `Script` of provider responses.  Wall-clock
  time is an explicit `Nat` of seconds; the tokio interval timer is modelled
  by its scheduled tick times (creation time, then one period apart, missed
  ticks firing immediately), and each iteration produces the observable
  actions (network sends with their timestamps, emitted lifecycle events,
  store writes, environment writes) in order.
-/

/-- The fragment of serde_json values the code reads: null, strings,
unsigned integers (`as_u64` range) and objects. -/
inductive Json where
  | null
  | str (s : String)
  | num (n : Nat)
  | obj (fields : List (String × Json))

/-- Field lookup, `value[key]` on an object followed by a presence check:
indexing anything other than an object yields JSON null, i.e. no field. -/
def Json.getField : Json → String → Option Json
  | .obj fields, key => fields.lookup key
  | _, _ => none

/-- Rust `value[key].as_str()`: the field is present and a string. -/
def Json.getStr (j : Json) (key : String) : Option String :=
  match j.getField key with
  | some (.str s) => some s
  | _ => none

/-- Rust `value[key].as_u64()`: the field is present and an unsigned number. -/
def Json.getU64 (j : Json) (key : String) : Option Nat :=
  match j.getField key with
  | some (.num n) => some n
  | _ => none

/-- The persisted credential (struct `CopilotToken` in
`copilot_token_store.rs`): secret plus optional metadata parsed out of a
structured token. -/
structure CopilotToken where
  token : String
  expires_at : Option Nat
  sku : Option String
  proxy_endpoint : Option String
  tracking_id : Option String
deriving DecidableEq, Repr

/-- Rust `str::split(c)` on the character list of the string: splits at every
occurrence of `c`, keeping empty pieces, as Rust does. -/
def splitChar (c : Char) : List Char → List (List Char)
  | [] => [[]]
  | x :: xs =>
    if x = c then [] :: splitChar c xs
    else
      match splitChar c xs with
      | [] => [[x]]
      | y :: ys => (x :: y) :: ys

/-- Rust `str::split_once(c)`: split at the first occurrence of `c`, `none`
when `c` does not occur. -/
def splitOnceChar (c : Char) : List Char → Option (List Char × List Char)
  | [] => none
  | x :: xs =>
    if x = c then some ([], xs)
    else (splitOnceChar c xs).map (fun p => (x :: p.1, p.2))

/-- Rust `str::parse::<u64>()`: an optional leading plus sign, then at least
one ASCII digit, value within the unsigned 64-bit range. -/
def parseU64Chars (l : List Char) : Option Nat :=
  let l' := match l with
    | '+' :: rest => rest
    | _ => l
  if l'.isEmpty then none
  else if l'.all (fun c => c.isDigit) then
    let n := l'.foldl (fun acc c => acc * 10 + (c.toNat - 48)) 0
    if n < 18446744073709551616 then some n else none
  else none

/-- One step of the structured-token parse loop in
`CopilotToken::from_raw_token`: split the part at the first equals sign and
dispatch on the key. -/
def partStep (tok : CopilotToken) (part : List Char) : CopilotToken :=
  match splitOnceChar '=' part with
  | some (key, value) =>
    if key = "exp".data then
      match parseU64Chars value with
      | some exp => { tok with expires_at := some exp }
      | none => tok
    else if key = "sku".data then { tok with sku := some (String.mk value) }
    else if key = "proxy-ep".data then { tok with proxy_endpoint := some (String.mk value) }
    else if key = "tid".data then { tok with tracking_id := some (String.mk value) }
    else tok
  | none => tok

/-- `CopilotToken::from_raw_token`: keep the raw secret; parse metadata out
of it only when it begins with the literal prefix `tid=`, by splitting on
semicolons and folding `partStep` over the parts. -/
def CopilotToken.from_raw_token (raw_token : String) : CopilotToken :=
  let init : CopilotToken :=
    { token := raw_token, expires_at := none, sku := none,
      proxy_endpoint := none, tracking_id := none }
  if "tid=".data.isPrefixOf raw_token.data then
    (splitChar ';' raw_token.data).foldl partStep init
  else init

/-- `CopilotToken::is_expired`, with the current Unix time in seconds passed
explicitly: expired iff an expiry is set and `current_time >= expires_at`. -/
def CopilotToken.is_expired (t : CopilotToken) (current_time : Nat) : Bool :=
  match t.expires_at with
  | some e => decide (current_time ≥ e)
  | none => false

/-- Serde serialization of `CopilotToken` optional string fields. -/
def optStrJson : Option String → Json
  | none => .null
  | some s => .str s

/-- Serde serialization of the optional `expires_at` field. -/
def optNatJson : Option Nat → Json
  | none => .null
  | some n => .num n

/-- Serde `to_string_pretty` of a `CopilotToken`, at the level of JSON
values: an object with the five struct fields, `None` as null. -/
def CopilotToken.toJson (t : CopilotToken) : Json :=
  .obj [("token", .str t.token),
        ("expires_at", optNatJson t.expires_at),
        ("sku", optStrJson t.sku),
        ("proxy_endpoint", optStrJson t.proxy_endpoint),
        ("tracking_id", optStrJson t.tracking_id)]

/-- Serde deserialization of an optional string field: absent or null is
`None`, a string is `Some`, anything else is a type error. -/
def jOptStr : Option Json → Option (Option String)
  | none => some none
  | some .null => some none
  | some (.str s) => some (some s)
  | _ => none

/-- Serde deserialization of the optional `expires_at` field. -/
def jOptNat : Option Json → Option (Option Nat)
  | none => some none
  | some .null => some none
  | some (.num n) => some (some n)
  | _ => none

/-- Serde `from_str` for `CopilotToken`, at the level of JSON values:
requires an object whose `token` field is a string; the optional fields
default to `None` when absent or null; `none` models a parse error. -/
def CopilotToken.fromJson : Json → Option CopilotToken
  | .obj fields =>
    match (Json.obj fields).getField "token" with
    | some (.str tok) =>
      match jOptNat ((Json.obj fields).getField "expires_at"),
            jOptStr ((Json.obj fields).getField "sku"),
            jOptStr ((Json.obj fields).getField "proxy_endpoint"),
            jOptStr ((Json.obj fields).getField "tracking_id") with
      | some e, some s, some p, some t =>
        some { token := tok, expires_at := e, sku := s,
               proxy_endpoint := p, tracking_id := t }
      | _, _, _, _ => none
    | _ => none
  | _ => none

namespace CopilotTokenStore

/-- `CopilotTokenStore::save_token`: serialize and overwrite the token file.
The file state is the content of `copilot_token.json` when it exists. -/
def save_token (t : CopilotToken) (_file : Option Json) : Option Json :=
  some t.toJson

/-- `CopilotTokenStore::clear_token`: remove the file when present (the
second component counts removals); absence is not an error. -/
def clear_token : Option Json → Option Json × Nat
  | some _ => (none, 1)
  | none => (none, 0)

/-- `CopilotTokenStore::load_token`, with the current time passed
explicitly.  Returns the read result, the new file state, and how many file
deletions were performed.  A missing file is `Ok(None)`; malformed content
is an error; an expired credential is deleted via `clear_token` and
reported as `Ok(None)`. -/
def load_token (file : Option Json) (now : Nat) :
    Except String (Option CopilotToken) × Option Json × Nat :=
  match file with
  | none => (.ok none, none, 0)
  | some content =>
    match CopilotToken.fromJson content with
    | none => (.error "Failed to parse token file", some content, 0)
    | some token =>
      if token.is_expired now then
        let c := clear_token (some content)
        (.ok none, c.1, c.2)
      else (.ok (some token), some content, 0)

/-- `CopilotTokenStore::get_valid_token`, with the current time and the
`COPILOT_TOKEN` environment variable passed explicitly: the stored secret
when `load_token` yields an unexpired credential, otherwise the
environment variable. -/
def get_valid_token (file : Option Json) (now : Nat) (env : Option String) :
    Option String × Option Json × Nat :=
  match load_token file now with
  | (.ok (some token), f', d) =>
    if token.is_expired now = false then (some token.token, f', d)
    else (env, f', d)
  | (_, f', d) => (env, f', d)

end CopilotTokenStore

/-! The device-flow handler `handle_copilot_auth` (`copilot.rs`). -/

/-- Scripted response of the device-code endpoint: the send itself may fail
(transport error), otherwise an HTTP status arrives together with the
outcome of `.json()` on the body (`none` models a body that fails to parse;
the body is only read when the status is a success). -/
inductive DeviceResp where
  | sendErr
  | resp (status : Nat) (jsonBody : Option Json)

/-- Scripted response of one poll of the token endpoint: a failed send, or a
status with the parsed JSON body (read only on success status) and the
plain body text (read only on non-success status, `unwrap_or_default`). -/
inductive TokenResp where
  | sendErr
  | resp (status : Nat) (jsonBody : Option Json) (text : String)

/-- Scripted response of one Copilot exchange endpoint: a failed send, or a
status with the parsed JSON body (read only on success status) and the
error body text (read only on non-404 failure status). -/
inductive ExchResp where
  | sendErr
  | resp (status : Nat) (jsonBody : Option Json) (text : String)

/-- reqwest `StatusCode::is_success`: 2xx. -/
def isSuccess (status : Nat) : Bool :=
  decide (200 ≤ status) && decide (status < 300)

/-- Observable actions of one authentication attempt, in program order. -/
inductive AuthAction where
  | emitStarted (verification_uri user_code : String)
  | emitComplete (success : Bool) (message : String)
  | tokenSend (time : Nat)
  | exchangeSend (url : String)
  | saveToken (tok : CopilotToken)
  | setEnv (value : String)

/-- How the `handle_copilot_auth` future resolves: a normal `Ok(())` return,
an `Err(CodexErr)` return (the `?` operator), a panic (an `unwrap` of
`None`, tagged with the field it unwrapped), or exhaustion of the response
script (a model artifact: the run needs more provider responses). -/
inductive FlowOutcome where
  | normal
  | codexErr
  | panicked (field : String)
  | outOfScript
deriving DecidableEq

/-- The ordered Copilot exchange endpoints `(url, name)` from `copilot.rs`. -/
def copilot_endpoints : List (String × String) :=
  [("https://api.github.com/copilot_internal/v2/token", "Internal V2"),
   ("https://api.github.com/copilot/token", "Public"),
   ("https://api.github.com/user/copilot_internal/token", "User Internal")]

/-- The ordered candidate token field names scanned in an exchange body. -/
def token_fields : List String :=
  ["token", "access_token", "chat_token", "copilot_token"]

/-- First of the candidate token fields present as a string in the body,
scanning `token_fields` in order. -/
def findTokenField (body : Json) : List String → Option String
  | [] => none
  | f :: fs =>
    match body.getStr f with
    | some v => some v
    | none => findTokenField body fs

/-- Result of the exchange loop: the first endpoint whose success body had a
token field (with its name and the value), fall-through with the last
recorded error, a transport or body-parse error aborting the handler, or
script exhaustion. -/
inductive ExchResult where
  | found (endpointName : String) (secret : String)
  | fallback (lastError : String)
  | aborted
  | outOfScript
deriving DecidableEq

/-- The error text `last_error` records for an endpoint that did not yield a
token: success without any known field, 404, or another failure status. -/
def recordErrorFor (name : String) : ExchResp → String
  | .sendErr => ""
  | .resp status _ text =>
    if isSuccess status then "No token field found in " ++ name ++ " response"
    else if status = 404 then name ++ " endpoint not found"
    else name ++ " failed: " ++ toString status ++ " - " ++ text

/-- The exchange loop over the candidate endpoints, consuming one scripted
response per endpoint actually contacted.  Returns the result and the list
of endpoint URLs that received a request, in order. -/
def exchangeLoop :
    List (String × String) → List ExchResp → String → ExchResult × List String
  | [], _, lastError => (.fallback lastError, [])
  | _ :: _, [], _ => (.outOfScript, [])
  | (url, name) :: eps, r :: rs, _lastError =>
    match r with
    | .sendErr => (.aborted, [url])
    | .resp status jsonBody text =>
      if isSuccess status then
        match jsonBody with
        | none => (.aborted, [url])
        | some body =>
          match findTokenField body token_fields with
          | some tok => (.found name tok, [url])
          | none =>
            let rest := exchangeLoop eps rs ("No token field found in " ++ name ++ " response")
            (rest.1, url :: rest.2)
      else if status = 404 then
        let rest := exchangeLoop eps rs (name ++ " endpoint not found")
        (rest.1, url :: rest.2)
      else
        let rest := exchangeLoop eps rs (name ++ " failed: " ++ toString status ++ " - " ++ text)
        (rest.1, url :: rest.2)

/-- The fixed prefix of the fallback outcome message, before the recorded
last error is appended. -/
def fallbackMsgPrefix : String :=
  "GitHub authentication complete. Note: Using GitHub token as Copilot endpoints are not accessible. Last error: "

/-- The exchange phase entered once the provider access token arrives: run
the exchange loop starting from an empty `last_error`; on a found token
save it, export it to the environment and emit the success event; on
fall-through do the same with the provider access token itself; a
transport or body-parse error propagates as `Err` with no event. -/
def exchangePhase (access_token : String) (exch : List ExchResp) :
    List AuthAction × FlowOutcome :=
  match exchangeLoop copilot_endpoints exch "" with
  | (.found name tok, sent) =>
    (sent.map AuthAction.exchangeSend ++
       [.saveToken (CopilotToken.from_raw_token tok), .setEnv tok,
        .emitComplete true ("Successfully authenticated with GitHub Copilot via " ++ name)],
     .normal)
  | (.fallback lastError, sent) =>
    (sent.map AuthAction.exchangeSend ++
       [.saveToken (CopilotToken.from_raw_token access_token), .setEnv access_token,
        .emitComplete true (fallbackMsgPrefix ++ lastError)],
     .normal)
  | (.aborted, sent) => (sent.map AuthAction.exchangeSend, .codexErr)
  | (.outOfScript, sent) => (sent.map AuthAction.exchangeSend, .outOfScript)

/-- The polling loop of `handle_copilot_auth`.  `interval` is the poll
interval in seconds, `deadline` the hard deadline (issue time plus 300
seconds).  `now` is the current time and `slot` the next scheduled tick of
the tokio interval timer (created at issue time with immediate first tick;
a missed tick fires immediately, so a tick completes at `max now slot` and
the schedule advances by `interval` regardless).  Each iteration first
checks the deadline, then ticks, then sends to the token endpoint,
consuming one scripted response. -/
def pollLoop (interval deadline : Nat) (exch : List ExchResp) :
    List TokenResp → Nat → Nat → List AuthAction × FlowOutcome
  | script, now, slot =>
    if now > deadline then
      ([.emitComplete false "Authentication expired"], .normal)
    else
      match script with
      | [] => ([], .outOfScript)
      | r :: rest =>
        let t := max now slot
        match r with
        | .sendErr => ([.tokenSend t], .codexErr)
        | .resp status jsonBody text =>
          if isSuccess status then
            match jsonBody with
            | none => ([.tokenSend t], .codexErr)
            | some body =>
              match body.getStr "access_token" with
              | some access_token =>
                let ex := exchangePhase access_token exch
                (.tokenSend t :: ex.1, ex.2)
              | none =>
                match body.getStr "error" with
                | some e =>
                  if e = "authorization_pending" then
                    let k := pollLoop interval deadline exch rest t (slot + interval)
                    (.tokenSend t :: k.1, k.2)
                  else if e = "slow_down" then
                    let k := pollLoop interval deadline exch rest (t + interval + 5) (slot + interval)
                    (.tokenSend t :: k.1, k.2)
                  else if e = "access_denied" then
                    ([.tokenSend t, .emitComplete false "User denied authorization"], .normal)
                  else if e = "expired_token" then
                    ([.tokenSend t,
                      .emitComplete false "Authorization code expired, please try again"], .normal)
                  else
                    ([.tokenSend t,
                      .emitComplete false ("Authentication failed: " ++ e)], .normal)
                | none =>
                  ([.tokenSend t, .emitComplete false "Unexpected response from GitHub"], .normal)
          else
            if status ≥ 500 then
              let k := pollLoop interval deadline exch rest t (slot + interval)
              (.tokenSend t :: k.1, k.2)
            else
              ([.tokenSend t,
                .emitComplete false ("GitHub API error: " ++ toString status ++ " - " ++ text)],
               .normal)

/-- Outcome of the device-code phase: the parsed grant data, an `Err`
return, or a panic on a missing mandatory field (in unwrap order:
`user_code`, `verification_uri`, `device_code`; a missing `interval`
defaults to 5). -/
inductive DeviceParse where
  | grant (user_code verification_uri device_code : String) (interval : Nat)
  | codexErr
  | panicked (field : String)
deriving DecidableEq

/-- The device-code request and response parsing at the top of
`handle_copilot_auth`: a failed send or failed `.json()` returns `Err`; a
non-success status returns `Err(UnexpectedStatus)`; then the three
mandatory fields are `unwrap`ped in order and `interval` defaults to 5. -/
def parseDevice : DeviceResp → DeviceParse
  | .sendErr => .codexErr
  | .resp status jsonBody =>
    if isSuccess status then
      match jsonBody with
      | none => .codexErr
      | some body =>
        match body.getStr "user_code" with
        | none => .panicked "user_code"
        | some user_code =>
          match body.getStr "verification_uri" with
          | none => .panicked "verification_uri"
          | some verification_uri =>
            match body.getStr "device_code" with
            | none => .panicked "device_code"
            | some device_code =>
              .grant user_code verification_uri device_code ((body.getU64 "interval").getD 5)
    else .codexErr

/-- One scripted run of `handle_copilot_auth`: the grant issue time (the
instant the deadline and interval timer are created), the device-code
response, the token-endpoint responses in poll order, and the exchange
endpoint responses in endpoint order. -/
structure Script where
  t0 : Nat
  device : DeviceResp
  tokens : List TokenResp
  exchange : List ExchResp

/-- The full `handle_copilot_auth` run over a script: device-code phase,
started event, then the polling loop with deadline `t0 + 300` and both the
timer schedule and the clock starting at `t0`. -/
def handle_copilot_auth (s : Script) : List AuthAction × FlowOutcome :=
  match parseDevice s.device with
  | .codexErr => ([], .codexErr)
  | .panicked f => ([], .panicked f)
  | .grant user_code verification_uri _device_code interval =>
    let k := pollLoop interval (s.t0 + 300) s.exchange s.tokens s.t0 s.t0
    (.emitStarted verification_uri user_code :: k.1, k.2)

/-- Whether an action is an `AuthComplete` lifecycle event. -/
def isComplete : AuthAction → Bool
  | .emitComplete _ _ => true
  | _ => false

/-- Number of `AuthComplete` lifecycle events in a trace. -/
def countComplete (l : List AuthAction) : Nat :=
  (l.filter isComplete).length

/-- Timestamps of the token-endpoint sends in a trace. -/
def sendTimes (l : List AuthAction) : List Nat :=
  l.filterMap (fun a => match a with
    | .tokenSend t => some t
    | _ => none)

/-- An exchange response that makes the loop record an error and move on
to the next candidate endpoint: a success status whose parsed body has no
known token field, a 404, or another failure status.  A failed send or a
success whose body fails to parse aborts the handler instead. -/
def continuesWithError : ExchResp → Bool
  | .sendErr => false
  | .resp status jsonBody _ =>
    if isSuccess status then
      match jsonBody with
      | some body => (findTokenField body token_fields).isNone
      | none => false
    else true

/-- A structured-token part whose key is `exp` carries a value that does
not parse as a `u64` (parts without an equals sign or with another key are
unconstrained). -/
def expUnparseable (p : List Char) : Bool :=
  match splitOnceChar '=' p with
  | some (k, v) => if k = "exp".data then (parseU64Chars v).isNone else true
  | none => true

/-! Helper lemmas. -/

/-- A single parse step never changes the stored secret. -/
theorem partStep_token (tok : CopilotToken) (p : List Char) :
    (partStep tok p).token = tok.token := by
  unfold partStep
  cases h : splitOnceChar '=' p with
  | none => rfl
  | some kv =>
    obtain ⟨k, v⟩ := kv
    simp only
    split_ifs
    · cases parseU64Chars v <;> rfl
    · rfl
    · rfl
    · rfl
    · rfl

/-- The parse fold never changes the stored secret. -/
theorem foldl_partStep_token (parts : List (List Char)) :
    ∀ tok : CopilotToken, (parts.foldl partStep tok).token = tok.token := by
  induction parts with
  | nil => intro tok; rfl
  | cons p ps ih => intro tok; rw [List.foldl_cons, ih, partStep_token]

/-- `from_raw_token` always stores the raw input string as the secret. -/
theorem from_raw_token_token (raw : String) :
    (CopilotToken.from_raw_token raw).token = raw := by
  unfold CopilotToken.from_raw_token
  split_ifs
  · rw [foldl_partStep_token]
  · rfl

/-- Serialization of a credential followed by deserialization is the
identity. -/
theorem fromJson_toJson (t : CopilotToken) :
    CopilotToken.fromJson t.toJson = some t := by
  obtain ⟨tok, e, s, p, tr⟩ := t
  cases e <;> cases s <;> cases p <;> cases tr <;> rfl

/-! Claim C2: load semantics and lazy eviction. -/

/-- C2: for every call to `load_token`, a missing file yields `None`; an
existing file whose deserialized credential is expired is deleted exactly
once (deletion count 1, file state cleared) with result `None`; and an
expired credential is never returned by `load_token`. -/
theorem C2_load_lazy_eviction (j : Json) (tok : CopilotToken) (now : Nat)
    (file : Option Json) :
    CopilotTokenStore.load_token none now = (.ok none, none, 0)
    ∧ (CopilotToken.fromJson j = some tok → tok.is_expired now = true →
        CopilotTokenStore.load_token (some j) now = (.ok none, none, 1))
    ∧ (∀ tok' f' d,
        CopilotTokenStore.load_token file now = (.ok (some tok'), f', d) →
        tok'.is_expired now = false) := by
  refine ⟨rfl, ?_, ?_⟩
  · intro hj he
    simp [CopilotTokenStore.load_token, hj, he, CopilotTokenStore.clear_token]
  · intro tok' f' d h
    cases file with
    | none => simp [CopilotTokenStore.load_token] at h
    | some content =>
      cases hfj : CopilotToken.fromJson content with
      | none => simp [CopilotTokenStore.load_token, hfj] at h
      | some t =>
        by_cases he : t.is_expired now = true
        · simp [CopilotTokenStore.load_token, hfj, he,
            CopilotTokenStore.clear_token] at h
        · simp only [Bool.not_eq_true] at he
          simp [CopilotTokenStore.load_token, hfj, he] at h
          rw [← h.1]
          exact he

/-- Witness for C2: an expired concrete credential is evicted with one
deletion, and a concrete successful load is unexpired. -/
theorem C2_load_lazy_eviction_witness :
    CopilotTokenStore.load_token
        (some (CopilotToken.toJson
          { token := "s", expires_at := some 3, sku := none,
            proxy_endpoint := none, tracking_id := none })) 5
      = (.ok none, none, 1)
    ∧ ({ token := "s", expires_at := some 9, sku := none,
         proxy_endpoint := none, tracking_id := none } : CopilotToken).is_expired 5
        = false := by
  constructor
  · exact (C2_load_lazy_eviction
      (CopilotToken.toJson
        { token := "s", expires_at := some 3, sku := none,
          proxy_endpoint := none, tracking_id := none })
      { token := "s", expires_at := some 3, sku := none,
        proxy_endpoint := none, tracking_id := none } 5 none).2.1 rfl rfl
  · exact (C2_load_lazy_eviction Json.null
      { token := "s", expires_at := some 9, sku := none,
        proxy_endpoint := none, tracking_id := none } 5
      (some (CopilotToken.toJson
        { token := "s", expires_at := some 9, sku := none,
          proxy_endpoint := none, tracking_id := none }))).2.2
      { token := "s", expires_at := some 9, sku := none,
        proxy_endpoint := none, tracking_id := none }
      (some (CopilotToken.toJson
        { token := "s", expires_at := some 9, sku := none,
          proxy_endpoint := none, tracking_id := none })) 0 rfl

/-! Claim C5: get_valid_token precedence and environment fallback. -/

/-- C5: `get_valid_token` returns the stored secret exactly when a stored
credential is present, well-formed and unexpired; an absent file, an
expired credential or malformed content falls back to the `COPILOT_TOKEN`
environment override; the result is `None` only when the fallback is also
absent.  In particular, with no stored file and the override set, the
environment value is returned. -/
theorem C5_get_valid_token (j : Json) (tok : CopilotToken) (now : Nat)
    (env : Option String) (file : Option Json) :
    (CopilotToken.fromJson j = some tok → tok.is_expired now = false →
      CopilotTokenStore.get_valid_token (some j) now env = (some tok.token, some j, 0))
    ∧ CopilotTokenStore.get_valid_token none now env = (env, none, 0)
    ∧ (CopilotToken.fromJson j = some tok → tok.is_expired now = true →
      CopilotTokenStore.get_valid_token (some j) now env = (env, none, 1))
    ∧ (CopilotToken.fromJson j = none →
      CopilotTokenStore.get_valid_token (some j) now env = (env, some j, 0))
    ∧ ((CopilotTokenStore.get_valid_token file now env).1 = none → env = none) := by
  refine ⟨?_, rfl, ?_, ?_, ?_⟩
  · intro hj he
    simp [CopilotTokenStore.get_valid_token, CopilotTokenStore.load_token, hj, he]
  · intro hj he
    simp [CopilotTokenStore.get_valid_token, CopilotTokenStore.load_token, hj, he,
      CopilotTokenStore.clear_token]
  · intro hj
    simp [CopilotTokenStore.get_valid_token, CopilotTokenStore.load_token, hj]
  · intro h
    cases file with
    | none => simpa [CopilotTokenStore.get_valid_token, CopilotTokenStore.load_token] using h
    | some content =>
      cases hfj : CopilotToken.fromJson content with
      | none =>
        simpa [CopilotTokenStore.get_valid_token, CopilotTokenStore.load_token, hfj] using h
      | some t =>
        by_cases he : t.is_expired now = true
        · simpa [CopilotTokenStore.get_valid_token, CopilotTokenStore.load_token, hfj, he,
            CopilotTokenStore.clear_token] using h
        · simp only [Bool.not_eq_true] at he
          simp [CopilotTokenStore.get_valid_token, CopilotTokenStore.load_token, hfj, he] at h

/-- Witness for C5: concrete stored-secret hit, environment fallback with
no stored file, and fallback on an expired stored credential. -/
theorem C5_get_valid_token_witness :
    CopilotTokenStore.get_valid_token
        (some (CopilotToken.toJson
          { token := "stored", expires_at := some 9, sku := none,
            proxy_endpoint := none, tracking_id := none })) 5 (some "envtok")
      = (some "stored",
         some (CopilotToken.toJson
          { token := "stored", expires_at := some 9, sku := none,
            proxy_endpoint := none, tracking_id := none }), 0)
    ∧ CopilotTokenStore.get_valid_token none 5 (some "envtok") = (some "envtok", none, 0) := by
  constructor
  · exact (C5_get_valid_token
      (CopilotToken.toJson
        { token := "stored", expires_at := some 9, sku := none,
          proxy_endpoint := none, tracking_id := none })
      { token := "stored", expires_at := some 9, sku := none,
        proxy_endpoint := none, tracking_id := none } 5 (some "envtok") none).1 rfl rfl
  · exact (C5_get_valid_token Json.null
      { token := "x", expires_at := none, sku := none,
        proxy_endpoint := none, tracking_id := none } 5 (some "envtok") none).2.1

/-! Claim C9: save/load round trip. -/

/-- C9: saving an unexpired credential with `save_token` and reading it
back with `load_token` yields exactly the credential saved, every field
identical, with no deletion. -/
theorem C9_save_load_roundtrip (tok : CopilotToken) (file : Option Json) (now : Nat)
    (h : tok.is_expired now = false) :
    CopilotTokenStore.load_token (CopilotTokenStore.save_token tok file) now
      = (.ok (some tok), some tok.toJson, 0) := by
  simp [CopilotTokenStore.save_token, CopilotTokenStore.load_token, fromJson_toJson, h]

/-- Witness for C9: round trip of a concrete credential with all metadata
fields set. -/
theorem C9_save_load_roundtrip_witness :
    CopilotTokenStore.load_token
        (CopilotTokenStore.save_token
          { token := "tid=t;exp=99", expires_at := some 99, sku := some "pro",
            proxy_endpoint := some "pe", tracking_id := some "t" } none) 42
      = (.ok (some
          { token := "tid=t;exp=99", expires_at := some 99, sku := some "pro",
            proxy_endpoint := some "pe", tracking_id := some "t" }),
         some (CopilotToken.toJson
          { token := "tid=t;exp=99", expires_at := some 99, sku := some "pro",
            proxy_endpoint := some "pe", tracking_id := some "t" }), 0) :=
  C9_save_load_roundtrip
    { token := "tid=t;exp=99", expires_at := some 99, sku := some "pro",
      proxy_endpoint := some "pe", tracking_id := some "t" } none 42 rfl

/-- Chars: non-membership in a cons. -/
theorem notMemCons {c x : Char} {xs : List Char} (h1 : c ≠ x) (h2 : c ∉ xs) :
    c ∉ x :: xs := by
  intro hm
  rcases List.mem_cons.mp hm with h | h
  · exact h1 h
  · exact h2 h

/-- `splitChar` of a delimiter-free list is that single piece. -/
theorem splitChar_of_not_mem (c : Char) (l : List Char) (h : c ∉ l) :
    splitChar c l = [l] := by
  induction l with
  | nil => rfl
  | cons x xs ih =>
    rw [List.mem_cons] at h
    push_neg at h
    simp only [splitChar]
    rw [if_neg (fun e => h.1 e.symm), ih h.2]

/-- `splitChar` peels off a delimiter-free piece before a delimiter. -/
theorem splitChar_append (c : Char) (a rest : List Char) (ha : c ∉ a) :
    splitChar c (a ++ c :: rest) = a :: splitChar c rest := by
  induction a with
  | nil => simp [splitChar]
  | cons x xs ih =>
    rw [List.mem_cons] at ha
    push_neg at ha
    rw [List.cons_append]
    simp only [splitChar]
    rw [if_neg (fun e => ha.1 e.symm), ih ha.2]

/-- `splitOnceChar` splits at the first delimiter. -/
theorem splitOnceChar_append (c : Char) (k v : List Char) (hk : c ∉ k) :
    splitOnceChar c (k ++ c :: v) = some (k, v) := by
  induction k with
  | nil => simp [splitOnceChar]
  | cons x xs ih =>
    rw [List.mem_cons] at hk
    push_neg at hk
    rw [List.cons_append]
    simp only [splitOnceChar]
    rw [if_neg (fun e => hk.1 e.symm), ih hk.2]
    rfl

/-- A list is a Boolean prefix of itself followed by anything. -/
theorem isPrefixOf_append_self (l m : List Char) : l.isPrefixOf (l ++ m) = true := by
  induction l with
  | nil => simp [List.isPrefixOf]
  | cons x xs ih => simp [List.isPrefixOf, ih]

/-- Chars: non-membership in an append. -/
theorem notMemAppend (c : Char) (pre tail : List Char)
    (h1 : c ∉ pre) (h2 : c ∉ tail) : c ∉ pre ++ tail := by
  intro hm
  rcases List.mem_append.mp hm with h | h
  · exact h1 h
  · exact h2 h

/-- The parse fold leaves `expires_at` untouched when every `exp` part has
an unparseable value. -/
theorem foldl_partStep_expires (parts : List (List Char)) :
    ∀ tok : CopilotToken, (∀ p ∈ parts, expUnparseable p = true) →
      (parts.foldl partStep tok).expires_at = tok.expires_at := by
  induction parts with
  | nil => intro tok _; rfl
  | cons p ps ih =>
    intro tok hp
    rw [List.foldl_cons, ih _ (fun q hq => hp q (List.mem_cons_of_mem _ hq))]
    have hpe := hp p (List.mem_cons_self p ps)
    unfold expUnparseable at hpe
    unfold partStep
    cases hsp : splitOnceChar '=' p with
    | none => rfl
    | some kv =>
      obtain ⟨k, v⟩ := kv
      rw [hsp] at hpe
      simp only at hpe ⊢
      by_cases hk : k = "exp".data
      · rw [if_pos hk] at hpe ⊢
        rw [Option.isNone_iff_eq_none.mp hpe]
      · rw [if_neg hk]
        split_ifs <;> rfl

/-! Claim C6: structured-token parsing (corrected). -/

/-- C6 (counterexample): the secret `exp=123;sku=pro` is a
semicolon-delimited key=value structured token, yet `from_raw_token`
leaves `expires_at` and `sku` empty (it does not populate them from the
`exp` and `sku` keys), because parsing only happens for secrets starting
with `tid=`. -/
theorem C6_counterexample :
    (CopilotToken.from_raw_token "exp=123;sku=pro").expires_at ≠ some 123
    ∧ (CopilotToken.from_raw_token "exp=123;sku=pro").sku ≠ some "pro"
    ∧ CopilotToken.from_raw_token "exp=123;sku=pro"
        = { token := "exp=123;sku=pro", expires_at := none, sku := none,
            proxy_endpoint := none, tracking_id := none } := by
  refine ⟨?_, ?_, ?_⟩ <;> decide

/-- C6 (amended): the stored secret always equals the raw input; metadata
parsing happens only for secrets beginning with `tid=` — any other secret
keeps all four optional fields `None`; and for a `tid=`-prefixed
semicolon-delimited key=value token the keys `exp`, `sku`, `proxy-ep` and
`tid` populate `expires_at`, `sku`, `proxy_endpoint` and `tracking_id`
respectively. -/
theorem C6_from_raw_token_amended (raw t e s p : String) (n : Nat)
    (ht : ';' ∉ t.data) (he : ';' ∉ e.data) (hs : ';' ∉ s.data) (hp : ';' ∉ p.data)
    (hn : parseU64Chars e.data = some n) :
    (CopilotToken.from_raw_token raw).token = raw
    ∧ ("tid=".data.isPrefixOf raw.data = false →
        CopilotToken.from_raw_token raw
          = { token := raw, expires_at := none, sku := none,
              proxy_endpoint := none, tracking_id := none })
    ∧ CopilotToken.from_raw_token ("tid=" ++ t ++ ";exp=" ++ e ++ ";sku=" ++ s ++ ";proxy-ep=" ++ p)
        = { token := "tid=" ++ t ++ ";exp=" ++ e ++ ";sku=" ++ s ++ ";proxy-ep=" ++ p,
            expires_at := some n, sku := some s, proxy_endpoint := some p,
            tracking_id := some t } := by
  refine ⟨from_raw_token_token raw, ?_, ?_⟩
  · intro h
    simp [CopilotToken.from_raw_token, h]
  · have hA : ';' ∉ ('t' :: 'i' :: 'd' :: '=' :: t.data) :=
      notMemAppend ';' ['t', 'i', 'd', '='] t.data (by decide) ht
    have hB : ';' ∉ ('e' :: 'x' :: 'p' :: '=' :: e.data) :=
      notMemAppend ';' ['e', 'x', 'p', '='] e.data (by decide) he
    have hC : ';' ∉ ('s' :: 'k' :: 'u' :: '=' :: s.data) :=
      notMemAppend ';' ['s', 'k', 'u', '='] s.data (by decide) hs
    have hD : ';' ∉ ('p' :: 'r' :: 'o' :: 'x' :: 'y' :: '-' :: 'e' :: 'p' :: '=' :: p.data) :=
      notMemAppend ';' ['p', 'r', 'o', 'x', 'y', '-', 'e', 'p', '='] p.data (by decide) hp
    have hdata : ("tid=" ++ t ++ ";exp=" ++ e ++ ";sku=" ++ s ++ ";proxy-ep=" ++ p).data
        = ('t' :: 'i' :: 'd' :: '=' :: t.data) ++ ';' ::
            (('e' :: 'x' :: 'p' :: '=' :: e.data) ++ ';' ::
              (('s' :: 'k' :: 'u' :: '=' :: s.data) ++ ';' ::
                ('p' :: 'r' :: 'o' :: 'x' :: 'y' :: '-' :: 'e' :: 'p' :: '=' :: p.data))) := by
      show ((((((("tid=".data ++ t.data) ++ ";exp=".data) ++ e.data) ++ ";sku=".data) ++ s.data)
          ++ ";proxy-ep=".data) ++ p.data) = _
      simp [List.append_assoc]
    have hpre : "tid=".data.isPrefixOf
        ("tid=" ++ t ++ ";exp=" ++ e ++ ";sku=" ++ s ++ ";proxy-ep=" ++ p).data = true := by
      rw [hdata,
        show ('t' :: 'i' :: 'd' :: '=' :: t.data) = "tid=".data ++ t.data from rfl,
        List.append_assoc]
      exact isPrefixOf_append_self _ _
    have hsplit : splitChar ';'
        ("tid=" ++ t ++ ";exp=" ++ e ++ ";sku=" ++ s ++ ";proxy-ep=" ++ p).data
        = [('t' :: 'i' :: 'd' :: '=' :: t.data), ('e' :: 'x' :: 'p' :: '=' :: e.data),
           ('s' :: 'k' :: 'u' :: '=' :: s.data),
           ('p' :: 'r' :: 'o' :: 'x' :: 'y' :: '-' :: 'e' :: 'p' :: '=' :: p.data)] := by
      rw [hdata, splitChar_append _ _ _ hA, splitChar_append _ _ _ hB,
        splitChar_append _ _ _ hC, splitChar_of_not_mem _ _ hD]
    have hsA : splitOnceChar '=' ('t' :: 'i' :: 'd' :: '=' :: t.data)
        = some ("tid".data, t.data) :=
      splitOnceChar_append '=' "tid".data t.data (by decide)
    have hsB : splitOnceChar '=' ('e' :: 'x' :: 'p' :: '=' :: e.data)
        = some ("exp".data, e.data) :=
      splitOnceChar_append '=' "exp".data e.data (by decide)
    have hsC : splitOnceChar '=' ('s' :: 'k' :: 'u' :: '=' :: s.data)
        = some ("sku".data, s.data) :=
      splitOnceChar_append '=' "sku".data s.data (by decide)
    have hsD : splitOnceChar '=' ('p' :: 'r' :: 'o' :: 'x' :: 'y' :: '-' :: 'e' :: 'p' :: '=' :: p.data)
        = some ("proxy-ep".data, p.data) :=
      splitOnceChar_append '=' "proxy-ep".data p.data (by decide)
    unfold CopilotToken.from_raw_token
    rw [if_pos hpre, hsplit]
    simp only [List.foldl_cons, List.foldl_nil]
    have e1 : partStep
        { token := "tid=" ++ t ++ ";exp=" ++ e ++ ";sku=" ++ s ++ ";proxy-ep=" ++ p,
          expires_at := none, sku := none, proxy_endpoint := none, tracking_id := none }
        ('t' :: 'i' :: 'd' :: '=' :: t.data)
        = { token := "tid=" ++ t ++ ";exp=" ++ e ++ ";sku=" ++ s ++ ";proxy-ep=" ++ p,
            expires_at := none, sku := none, proxy_endpoint := none, tracking_id := some t } := by
      simp only [partStep, hsA]
      rw [if_neg (by decide), if_neg (by decide), if_neg (by decide), if_pos (by decide)]
    have e2 : partStep
        { token := "tid=" ++ t ++ ";exp=" ++ e ++ ";sku=" ++ s ++ ";proxy-ep=" ++ p,
          expires_at := none, sku := none, proxy_endpoint := none, tracking_id := some t }
        ('e' :: 'x' :: 'p' :: '=' :: e.data)
        = { token := "tid=" ++ t ++ ";exp=" ++ e ++ ";sku=" ++ s ++ ";proxy-ep=" ++ p,
            expires_at := some n, sku := none, proxy_endpoint := none, tracking_id := some t } := by
      simp only [partStep, hsB, if_true]
      rw [hn]
    have e3 : partStep
        { token := "tid=" ++ t ++ ";exp=" ++ e ++ ";sku=" ++ s ++ ";proxy-ep=" ++ p,
          expires_at := some n, sku := none, proxy_endpoint := none, tracking_id := some t }
        ('s' :: 'k' :: 'u' :: '=' :: s.data)
        = { token := "tid=" ++ t ++ ";exp=" ++ e ++ ";sku=" ++ s ++ ";proxy-ep=" ++ p,
            expires_at := some n, sku := some s, proxy_endpoint := none, tracking_id := some t } := by
      simp only [partStep, hsC]
      rw [if_neg (by decide), if_pos (by decide)]
    have e4 : partStep
        { token := "tid=" ++ t ++ ";exp=" ++ e ++ ";sku=" ++ s ++ ";proxy-ep=" ++ p,
          expires_at := some n, sku := some s, proxy_endpoint := none, tracking_id := some t }
        ('p' :: 'r' :: 'o' :: 'x' :: 'y' :: '-' :: 'e' :: 'p' :: '=' :: p.data)
        = { token := "tid=" ++ t ++ ";exp=" ++ e ++ ";sku=" ++ s ++ ";proxy-ep=" ++ p,
            expires_at := some n, sku := some s, proxy_endpoint := some p, tracking_id := some t } := by
      simp only [partStep, hsD]
      rw [if_neg (by decide), if_neg (by decide), if_pos (by decide)]
    rw [e1, e2, e3, e4]

/-- Witness for C6 (amended): a concrete structured token populates all
four metadata fields; a concrete non-`tid=` secret keeps them empty. -/
theorem C6_from_raw_token_amended_witness :
    CopilotToken.from_raw_token "tid=abc;exp=1700;sku=pro;proxy-ep=proxy.example"
      = { token := "tid=abc;exp=1700;sku=pro;proxy-ep=proxy.example",
          expires_at := some 1700, sku := some "pro",
          proxy_endpoint := some "proxy.example", tracking_id := some "abc" }
    ∧ CopilotToken.from_raw_token "plain-secret"
      = { token := "plain-secret", expires_at := none, sku := none,
          proxy_endpoint := none, tracking_id := none } := by
  constructor
  · exact (C6_from_raw_token_amended "x" "abc" "1700" "pro" "proxy.example" 1700
      (by decide) (by decide) (by decide) (by decide) (by decide)).2.2
  · exact (C6_from_raw_token_amended "plain-secret" "a" "1" "b" "c" 1
      (by decide) (by decide) (by decide) (by decide) (by decide)).2.1 (by decide)

/-! Claim C10: malformed expiry yields a never-expiring credential. -/

/-- C10: for every raw token whose structured `exp` entries all carry
values that do not parse as `u64`, `from_raw_token` leaves `expires_at`
as `None`; the resulting credential is never expired at any time, and
`load_token` always returns it, never evicting its file. -/
theorem C10_malformed_expiry (raw : String) (now : Nat)
    (h : ∀ p ∈ splitChar ';' raw.data, expUnparseable p = true) :
    (CopilotToken.from_raw_token raw).expires_at = none
    ∧ (CopilotToken.from_raw_token raw).is_expired now = false
    ∧ CopilotTokenStore.load_token (some (CopilotToken.from_raw_token raw).toJson) now
        = (.ok (some (CopilotToken.from_raw_token raw)),
           some (CopilotToken.from_raw_token raw).toJson, 0) := by
  have h1 : (CopilotToken.from_raw_token raw).expires_at = none := by
    unfold CopilotToken.from_raw_token
    split_ifs
    · exact foldl_partStep_expires _ _ h
    · rfl
  have h2 : (CopilotToken.from_raw_token raw).is_expired now = false := by
    unfold CopilotToken.is_expired
    rw [h1]
  refine ⟨h1, h2, ?_⟩
  simp [CopilotTokenStore.load_token, fromJson_toJson, h2]

/-- Witness for C10: a concrete structured token with malformed expiry
(`exp=notanumber`) produces a credential that never expires and survives
`load_token` at a large time. -/
theorem C10_malformed_expiry_witness :
    (CopilotToken.from_raw_token "tid=x;exp=notanumber").expires_at = none
    ∧ (CopilotToken.from_raw_token "tid=x;exp=notanumber").is_expired 99999999999 = false
    ∧ CopilotTokenStore.load_token
        (some (CopilotToken.from_raw_token "tid=x;exp=notanumber").toJson) 99999999999
        = (.ok (some (CopilotToken.from_raw_token "tid=x;exp=notanumber")),
           some (CopilotToken.from_raw_token "tid=x;exp=notanumber").toJson, 0) :=
  C10_malformed_expiry "tid=x;exp=notanumber" 99999999999 (by decide)

/-! Exchange-loop lemmas. -/

/-- A success response carrying a known token field short-circuits the
exchange loop at the current endpoint. -/
theorem exchangeLoop_found (url name : String) (eps : List (String × String))
    (s : Nat) (b : Json) (t v : String) (rs : List ExchResp) (le : String)
    (h1 : isSuccess s = true) (h2 : findTokenField b token_fields = some v) :
    exchangeLoop ((url, name) :: eps) (.resp s (some b) t :: rs) le
      = (.found name v, [url]) := by
  simp only [exchangeLoop]
  rw [if_pos h1]
  simp [h2]

/-- A response that records an error makes the exchange loop recurse on the
remaining endpoints with the recorded error as the new last error, after
sending to the current endpoint. -/
theorem exchangeLoop_step_continue (url name : String) (eps : List (String × String))
    (r : ExchResp) (rs : List ExchResp) (le : String)
    (h : continuesWithError r = true) :
    exchangeLoop ((url, name) :: eps) (r :: rs) le
      = ((exchangeLoop eps rs (recordErrorFor name r)).1,
         url :: (exchangeLoop eps rs (recordErrorFor name r)).2) := by
  cases r with
  | sendErr => simp [continuesWithError] at h
  | resp st jb tx =>
    by_cases hsu : isSuccess st = true
    · cases jb with
      | none => simp [continuesWithError, hsu] at h
      | some b =>
        simp only [continuesWithError, hsu, if_true, Option.isNone_iff_eq_none] at h
        simp only [exchangeLoop]
        rw [if_pos hsu]
        simp [h, recordErrorFor, hsu]
    · by_cases h404 : st = 404
      · subst h404
        simp only [exchangeLoop]
        rw [if_neg hsu]
        simp [recordErrorFor, hsu]
      · simp only [exchangeLoop]
        rw [if_neg hsu, if_neg h404]
        simp [recordErrorFor, hsu, h404]

/-! Claim C3: exchange endpoint and field precedence, and fallback. -/

/-- C3: the exchanger scans the candidate token fields in the fixed order
`token`, `access_token`, `chat_token`, `copilot_token` and the candidate
endpoints in their fixed order; the first HTTP-success response carrying a
known field determines the credential secret and no later endpoint
receives a request (shown for a success at each of the three endpoint
positions, and on the spec example E1 404 / E2 success / E3 unreached);
when every endpoint fails or has no known field, the stored secret is the
original provider access token and the outcome message carries the last
recorded per-endpoint error text. -/
theorem C3_exchange_precedence :
    (∀ body v, Json.getStr body "token" = some v →
      findTokenField body token_fields = some v)
    ∧ (∀ body v, Json.getStr body "token" = none →
        Json.getStr body "access_token" = some v →
        findTokenField body token_fields = some v)
    ∧ (∀ le s b t v rs, isSuccess s = true → findTokenField b token_fields = some v →
        exchangeLoop copilot_endpoints (.resp s (some b) t :: rs) le
          = (.found "Internal V2" v, ["https://api.github.com/copilot_internal/v2/token"]))
    ∧ (∀ le r1 s b t v rs, continuesWithError r1 = true → isSuccess s = true →
        findTokenField b token_fields = some v →
        exchangeLoop copilot_endpoints (r1 :: .resp s (some b) t :: rs) le
          = (.found "Public" v,
             ["https://api.github.com/copilot_internal/v2/token",
              "https://api.github.com/copilot/token"]))
    ∧ (∀ le r1 r2 s b t v rs, continuesWithError r1 = true → continuesWithError r2 = true →
        isSuccess s = true → findTokenField b token_fields = some v →
        exchangeLoop copilot_endpoints (r1 :: r2 :: .resp s (some b) t :: rs) le
          = (.found "User Internal" v,
             ["https://api.github.com/copilot_internal/v2/token",
              "https://api.github.com/copilot/token",
              "https://api.github.com/user/copilot_internal/token"]))
    ∧ (∀ r3, exchangeLoop copilot_endpoints
          [.resp 404 none "", .resp 200 (some (.obj [("access_token", .str "X")])) "", r3] ""
          = (.found "Public" "X",
             ["https://api.github.com/copilot_internal/v2/token",
              "https://api.github.com/copilot/token"]))
    ∧ (∀ access r1 r2 r3, continuesWithError r1 = true → continuesWithError r2 = true →
        continuesWithError r3 = true →
        exchangePhase access [r1, r2, r3]
          = ([.exchangeSend "https://api.github.com/copilot_internal/v2/token",
              .exchangeSend "https://api.github.com/copilot/token",
              .exchangeSend "https://api.github.com/user/copilot_internal/token",
              .saveToken (CopilotToken.from_raw_token access), .setEnv access,
              .emitComplete true (fallbackMsgPrefix ++ recordErrorFor "User Internal" r3)],
             .normal)
        ∧ (CopilotToken.from_raw_token access).token = access) := by
  refine ⟨?_, ?_, ?_, ?_, ?_, ?_, ?_⟩
  · intro body v h
    simp [findTokenField, token_fields, h]
  · intro body v h0 h
    simp [findTokenField, token_fields, h0, h]
  · intro le s b t v rs h1 h2
    exact exchangeLoop_found _ _ _ _ _ _ _ _ _ h1 h2
  · intro le r1 s b t v rs hc h1 h2
    show exchangeLoop (("https://api.github.com/copilot_internal/v2/token", "Internal V2")
        :: [("https://api.github.com/copilot/token", "Public"),
            ("https://api.github.com/user/copilot_internal/token", "User Internal")])
        (r1 :: .resp s (some b) t :: rs) le = _
    rw [exchangeLoop_step_continue _ _ _ _ _ _ hc,
      exchangeLoop_found _ _ _ _ _ _ _ _ _ h1 h2]
  · intro le r1 r2 s b t v rs hc1 hc2 h1 h2
    show exchangeLoop (("https://api.github.com/copilot_internal/v2/token", "Internal V2")
        :: ("https://api.github.com/copilot/token", "Public")
        :: [("https://api.github.com/user/copilot_internal/token", "User Internal")])
        (r1 :: r2 :: .resp s (some b) t :: rs) le = _
    rw [exchangeLoop_step_continue _ _ _ _ _ _ hc1,
      exchangeLoop_step_continue _ _ _ _ _ _ hc2,
      exchangeLoop_found _ _ _ _ _ _ _ _ _ h1 h2]
  · intro r3
    show exchangeLoop (("https://api.github.com/copilot_internal/v2/token", "Internal V2")
        :: [("https://api.github.com/copilot/token", "Public"),
            ("https://api.github.com/user/copilot_internal/token", "User Internal")])
        (.resp 404 none "" :: .resp 200 (some (.obj [("access_token", .str "X")])) "" :: [r3]) ""
        = _
    have hfound : exchangeLoop
        [("https://api.github.com/copilot/token", "Public"),
         ("https://api.github.com/user/copilot_internal/token", "User Internal")]
        (.resp 200 (some (.obj [("access_token", .str "X")])) "" :: [r3])
        (recordErrorFor "Internal V2" (.resp 404 none ""))
        = (.found "Public" "X", ["https://api.github.com/copilot/token"]) :=
      exchangeLoop_found _ _ _ _ _ _ _ _ _ (by decide) (by decide)
    rw [exchangeLoop_step_continue _ _ _ _ _ _ (by decide), hfound]
  · intro access r1 r2 r3 hc1 hc2 hc3
    refine ⟨?_, from_raw_token_token access⟩
    have hloop : exchangeLoop copilot_endpoints [r1, r2, r3] ""
        = (.fallback (recordErrorFor "User Internal" r3),
           ["https://api.github.com/copilot_internal/v2/token",
            "https://api.github.com/copilot/token",
            "https://api.github.com/user/copilot_internal/token"]) := by
      show exchangeLoop (("https://api.github.com/copilot_internal/v2/token", "Internal V2")
          :: ("https://api.github.com/copilot/token", "Public")
          :: [("https://api.github.com/user/copilot_internal/token", "User Internal")])
          (r1 :: r2 :: [r3]) "" = _
      rw [exchangeLoop_step_continue _ _ _ _ _ _ hc1,
        exchangeLoop_step_continue _ _ _ _ _ _ hc2,
        exchangeLoop_step_continue _ _ _ _ _ _ hc3]
      rfl
    unfold exchangePhase
    rw [hloop]
    rfl

/-- Witness for C3: concrete instantiations of every part — field order on
a concrete body, short-circuit at the second endpoint, and the concrete
fallback with its last recorded error in the message. -/
theorem C3_exchange_precedence_witness :
    findTokenField (.obj [("token", .str "A"), ("access_token", .str "B")]) token_fields
      = some "A"
    ∧ exchangeLoop copilot_endpoints
        [.resp 404 none "", .resp 200 (some (.obj [("access_token", .str "X")])) "",
         .resp 200 (some (.obj [("token", .str "unreached")])) ""] ""
        = (.found "Public" "X",
           ["https://api.github.com/copilot_internal/v2/token",
            "https://api.github.com/copilot/token"])
    ∧ exchangePhase "ghtoken" [.resp 404 none "", .resp 500 none "boom", .resp 404 none ""]
        = ([.exchangeSend "https://api.github.com/copilot_internal/v2/token",
            .exchangeSend "https://api.github.com/copilot/token",
            .exchangeSend "https://api.github.com/user/copilot_internal/token",
            .saveToken (CopilotToken.from_raw_token "ghtoken"), .setEnv "ghtoken",
            .emitComplete true (fallbackMsgPrefix ++ "User Internal endpoint not found")],
           .normal)
    ∧ (CopilotToken.from_raw_token "ghtoken").token = "ghtoken" := by
  refine ⟨?_, ?_, ?_, ?_⟩
  · exact C3_exchange_precedence.1 (.obj [("token", .str "A"), ("access_token", .str "B")])
      "A" rfl
  · exact C3_exchange_precedence.2.2.2.2.2.1
      (.resp 200 (some (.obj [("token", .str "unreached")])) "")
  · exact ((C3_exchange_precedence.2.2.2.2.2.2 "ghtoken"
      (.resp 404 none "") (.resp 500 none "boom") (.resp 404 none "")
      (by decide) (by decide) (by decide)).1)
  · exact ((C3_exchange_precedence.2.2.2.2.2.2 "ghtoken"
      (.resp 404 none "") (.resp 500 none "boom") (.resp 404 none "")
      (by decide) (by decide) (by decide)).2)

/-! Poll-loop lemmas. -/

/-- Past the deadline, the loop emits the expiry outcome and stops: no
further token-endpoint send occurs. -/
theorem pollLoop_expired (interval deadline : Nat) (exch : List ExchResp)
    (script : List TokenResp) (now slot : Nat) (h : now > deadline) :
    pollLoop interval deadline exch script now slot
      = ([.emitComplete false "Authentication expired"], .normal) := by
  cases script <;> (simp only [pollLoop]; rw [if_pos h])

/-- Within the deadline and with a response available, the iteration always
begins with a token-endpoint send at the tick time `max now slot`. -/
theorem pollLoop_head (interval deadline : Nat) (exch : List ExchResp)
    (r : TokenResp) (rest : List TokenResp) (now slot : Nat)
    (h : now ≤ deadline) :
    (pollLoop interval deadline exch (r :: rest) now slot).1.head?
      = some (.tokenSend (max now slot)) := by
  cases r with
  | sendErr => simp [pollLoop, if_neg (Nat.not_lt.mpr h)]
  | resp st jb tx =>
    simp only [pollLoop, if_neg (Nat.not_lt.mpr h)]
    by_cases hsu : isSuccess st = true
    · rw [if_pos hsu]
      cases jb with
      | none => rfl
      | some b =>
        cases hat : Json.getStr b "access_token" with
        | some a => simp [hat]
        | none =>
          cases her : Json.getStr b "error" with
          | none => simp [hat, her]
          | some e2 =>
            simp only [hat, her]
            split_ifs <;> rfl
    · rw [if_neg hsu]
      split_ifs <;> rfl

/-- A token send at the head of a trace contributes its timestamp. -/
theorem sendTimes_cons_tokenSend (t : Nat) (l : List AuthAction) :
    sendTimes (.tokenSend t :: l) = t :: sendTimes l := rfl

/-- Exchange traffic contains no token-endpoint send. -/
theorem sendTimes_map_exchangeSend (sent : List String) :
    sendTimes (sent.map AuthAction.exchangeSend) = [] := by
  induction sent with
  | nil => rfl
  | cons x xs ih => exact ih

/-- The exchange phase performs no token-endpoint send. -/
theorem sendTimes_exchangePhase (a : String) (e : List ExchResp) :
    sendTimes (exchangePhase a e).1 = [] := by
  unfold exchangePhase
  rcases hex : exchangeLoop copilot_endpoints e "" with ⟨res, sent⟩
  cases res <;>
    simp [sendTimes, List.filterMap_append, sendTimes_map_exchangeSend]

/-- Exchange traffic contains no `AuthComplete` event. -/
theorem countComplete_map_exchangeSend (sent : List String) :
    countComplete (sent.map AuthAction.exchangeSend) = 0 := by
  induction sent with
  | nil => rfl
  | cons x xs ih => exact ih

/-- The exchange phase emits exactly one `AuthComplete` event when it
resolves the handler normally, and none otherwise. -/
theorem countComplete_exchangePhase (a : String) (e : List ExchResp) :
    countComplete (exchangePhase a e).1
      = if (exchangePhase a e).2 = .normal then 1 else 0 := by
  unfold exchangePhase
  rcases hex : exchangeLoop copilot_endpoints e "" with ⟨res, sent⟩
  cases res <;>
    simp [countComplete, List.filter_append, isComplete]

/-- The polling loop emits exactly one `AuthComplete` event when it
resolves the handler normally, and none when it aborts with an error, a
panic or script exhaustion. -/
theorem countComplete_pollLoop (interval deadline : Nat) (exch : List ExchResp) :
    ∀ (script : List TokenResp) (now slot : Nat),
      countComplete (pollLoop interval deadline exch script now slot).1
        = if (pollLoop interval deadline exch script now slot).2 = .normal then 1 else 0 := by
  intro script
  induction script with
  | nil =>
    intro now slot
    by_cases hd : now > deadline
    · simp [pollLoop, hd, countComplete, isComplete]
    · simp [pollLoop, hd, countComplete]
  | cons r rest ih =>
    intro now slot
    by_cases hd : now > deadline
    · rw [pollLoop_expired _ _ _ _ _ _ hd]
      simp [countComplete, isComplete]
    · cases r with
      | sendErr =>
        simp [pollLoop, if_neg hd, countComplete, isComplete]
      | resp st jb tx =>
        simp only [pollLoop, if_neg hd]
        by_cases hsu : isSuccess st = true
        · rw [if_pos hsu]
          cases jb with
          | none => simp [countComplete, isComplete]
          | some b =>
            cases hat : Json.getStr b "access_token" with
            | some a =>
              simp only [hat]
              exact countComplete_exchangePhase a exch
            | none =>
              cases her : Json.getStr b "error" with
              | none => simp [hat, her, countComplete, isComplete]
              | some e2 =>
                simp only [hat, her]
                by_cases hp : e2 = "authorization_pending"
                · rw [if_pos hp]
                  exact ih _ _
                · rw [if_neg hp]
                  by_cases hsl : e2 = "slow_down"
                  · rw [if_pos hsl]
                    exact ih _ _
                  · rw [if_neg hsl]
                    by_cases hden : e2 = "access_denied"
                    · rw [if_pos hden]; simp [countComplete, isComplete]
                    · rw [if_neg hden]
                      by_cases hexp : e2 = "expired_token"
                      · rw [if_pos hexp]; simp [countComplete, isComplete]
                      · rw [if_neg hexp]; simp [countComplete, isComplete]
        · rw [if_neg hsu]
          by_cases h5 : st ≥ 500
          · rw [if_pos h5]
            exact ih _ _
          · rw [if_neg h5]; simp [countComplete, isComplete]

/-- Every token-endpoint send of the polling loop happens no later than the
deadline or is the single first scheduled tick after it, provided the tick
schedule is never more than one period ahead of the clock and consists of
issue time plus whole multiples of the interval — the state every real run
starts in and maintains. -/
theorem pollLoop_send_bound (interval deadline t0 : Nat) (exch : List ExchResp) :
    ∀ (script : List TokenResp) (now slot : Nat),
      slot ≤ now + interval → (∃ k, slot = t0 + k * interval) →
      ∀ u ∈ sendTimes (pollLoop interval deadline exch script now slot).1,
        u ≤ deadline
        ∨ (deadline < u ∧ u ≤ deadline + interval ∧ (u - t0) % interval = 0) := by
  intro script
  induction script with
  | nil =>
    intro now slot h1 h2 u hu
    by_cases hd : now > deadline
    · simp [pollLoop, hd, sendTimes] at hu
    · simp [pollLoop, hd, sendTimes] at hu
  | cons r rest ih =>
    intro now slot h1 h2 u hu
    by_cases hd : now > deadline
    · rw [pollLoop_expired _ _ _ _ _ _ hd] at hu
      simp [sendTimes] at hu
    · have hnow : now ≤ deadline := Nat.le_of_not_lt hd
      have hmr : slot ≤ max now slot := le_max_right now slot
      have htt : max now slot ≤ deadline
          ∨ (deadline < max now slot ∧ max now slot ≤ deadline + interval
              ∧ (max now slot - t0) % interval = 0) := by
        rcases le_or_lt (max now slot) deadline with hle | hgt
        · exact Or.inl hle
        · refine Or.inr ⟨hgt, max_le (by omega) (by omega), ?_⟩
          have hms : max now slot = slot := by
            rcases max_choice now slot with hc | hc
            · rw [hc] at hgt; omega
            · exact hc
          obtain ⟨k, hk⟩ := h2
          rw [hms, hk, Nat.add_sub_cancel_left]
          exact Nat.mul_mod_left k interval
      have hinv1 : slot + interval ≤ max now slot + interval := by omega
      have hinv2 : slot + interval ≤ (max now slot + interval + 5) + interval := by omega
      have hex' : ∃ k, slot + interval = t0 + k * interval := by
        obtain ⟨k, hk⟩ := h2
        exact ⟨k + 1, by rw [hk]; ring⟩
      cases r with
      | sendErr =>
        simp [pollLoop, if_neg hd, sendTimes] at hu
        exact hu ▸ htt
      | resp st jb tx =>
        simp only [pollLoop, if_neg hd] at hu
        by_cases hsu : isSuccess st = true
        · rw [if_pos hsu] at hu
          cases jb with
          | none =>
            simp [sendTimes] at hu
            exact hu ▸ htt
          | some b =>
            cases hat : Json.getStr b "access_token" with
            | some a =>
              simp only [hat] at hu
              rw [sendTimes_cons_tokenSend, sendTimes_exchangePhase] at hu
              rcases List.mem_cons.mp hu with hu | hu
              · exact hu ▸ htt
              · exact absurd hu (List.not_mem_nil u)
            | none =>
              cases her : Json.getStr b "error" with
              | none =>
                simp [hat, her, sendTimes] at hu
                exact hu ▸ htt
              | some e2 =>
                simp only [hat, her] at hu
                by_cases hp : e2 = "authorization_pending"
                · rw [if_pos hp, sendTimes_cons_tokenSend] at hu
                  rcases List.mem_cons.mp hu with hu | hu
                  · exact hu ▸ htt
                  · exact ih _ _ hinv1 hex' u hu
                · rw [if_neg hp] at hu
                  by_cases hsl : e2 = "slow_down"
                  · rw [if_pos hsl, sendTimes_cons_tokenSend] at hu
                    rcases List.mem_cons.mp hu with hu | hu
                    · exact hu ▸ htt
                    · exact ih _ _ hinv2 hex' u hu
                  · rw [if_neg hsl] at hu
                    by_cases hden : e2 = "access_denied"
                    · rw [if_pos hden] at hu
                      simp [sendTimes] at hu
                      exact hu ▸ htt
                    · rw [if_neg hden] at hu
                      by_cases hexp : e2 = "expired_token"
                      · rw [if_pos hexp] at hu
                        simp [sendTimes] at hu
                        exact hu ▸ htt
                      · rw [if_neg hexp] at hu
                        simp [sendTimes] at hu
                        exact hu ▸ htt
        · rw [if_neg hsu] at hu
          by_cases h5 : st ≥ 500
          · rw [if_pos h5, sendTimes_cons_tokenSend] at hu
            rcases List.mem_cons.mp hu with hu | hu
            · exact hu ▸ htt
            · exact ih _ _ hinv1 hex' u hu
          · rw [if_neg h5] at hu
            simp [sendTimes] at hu
            exact hu ▸ htt

/-! Claim C1: the five-minute hard deadline. -/

/-- C1: with deadline `t0 + 300` seconds, a poll iteration that begins past
the deadline immediately emits the failure outcome "Authentication
expired" and terminates with no further send; and in a run started at the
grant issue time `t0`, every token-endpoint send happens no later than the
deadline, or is the single first scheduled tick after it (at most one
interval past the deadline, on the tick schedule anchored at `t0`). -/
theorem C1_deadline_bound (interval t0 now slot u : Nat) (exch : List ExchResp)
    (script : List TokenResp) :
    (now > t0 + 300 →
      pollLoop interval (t0 + 300) exch script now slot
        = ([.emitComplete false "Authentication expired"], .normal))
    ∧ (u ∈ sendTimes (pollLoop interval (t0 + 300) exch script t0 t0).1 →
        u ≤ t0 + 300
        ∨ (t0 + 300 < u ∧ u ≤ t0 + 300 + interval ∧ (u - t0) % interval = 0)) := by
  constructor
  · intro h
    exact pollLoop_expired _ _ _ _ _ _ h
  · intro hu
    exact pollLoop_send_bound interval (t0 + 300) t0 exch script t0 t0
      (Nat.le_add_right t0 interval) ⟨0, by ring⟩ u hu

/-- Witness for C1: a concrete run already past the deadline expires with
the exact message, and the send of a concrete in-time run is bounded. -/
theorem C1_deadline_bound_witness :
    pollLoop 5 300 [] [.sendErr] 301 7
      = ([.emitComplete false "Authentication expired"], .normal)
    ∧ (0 ≤ 300 ∨ (300 < 0 ∧ 0 ≤ 305 ∧ (0 - 0) % 5 = 0)) := by
  constructor
  · exact (C1_deadline_bound 5 0 301 7 0 [] [.sendErr]).1 (by decide)
  · exact (C1_deadline_bound 5 0 301 7 0 [] [.sendErr]).2 (by decide)

/-! Claim C4: authorization_pending and slow_down polling semantics. -/

/-- C4: within the deadline, an `authorization_pending` response changes no
state and does not terminate the loop — the iteration just recurses with
the unchanged interval, and the following send (when the loop goes on)
comes at most one interval later; a `slow_down` response makes the loop
sleep `interval + 5` seconds before recursing, again with the unchanged
interval, so the next send (when the loop goes on within the deadline)
comes exactly `interval + 5` seconds after the current one — one extra
five-second delay, inserted once. -/
theorem C4_pending_slowdown (interval deadline : Nat) (exch : List ExchResp)
    (rest : List TokenResp) (now slot : Nat) :
    (∀ status body text, isSuccess status = true →
      Json.getStr body "access_token" = none →
      Json.getStr body "error" = some "authorization_pending" →
      now ≤ deadline →
      pollLoop interval deadline exch (.resp status (some body) text :: rest) now slot
        = (.tokenSend (max now slot)
            :: (pollLoop interval deadline exch rest (max now slot) (slot + interval)).1,
           (pollLoop interval deadline exch rest (max now slot) (slot + interval)).2))
    ∧ (∀ status body text, isSuccess status = true →
      Json.getStr body "access_token" = none →
      Json.getStr body "error" = some "slow_down" →
      now ≤ deadline →
      pollLoop interval deadline exch (.resp status (some body) text :: rest) now slot
        = (.tokenSend (max now slot)
            :: (pollLoop interval deadline exch rest (max now slot + interval + 5) (slot + interval)).1,
           (pollLoop interval deadline exch rest (max now slot + interval + 5) (slot + interval)).2))
    ∧ (∀ r' rest', rest = r' :: rest' → max now slot + interval + 5 ≤ deadline →
        (pollLoop interval deadline exch rest (max now slot + interval + 5) (slot + interval)).1.head?
          = some (.tokenSend (max now slot + interval + 5)))
    ∧ (∀ r' rest', rest = r' :: rest' → max now slot ≤ deadline →
        ∃ w, (pollLoop interval deadline exch rest (max now slot) (slot + interval)).1.head?
            = some (.tokenSend w) ∧ w ≤ max now slot + interval) := by
  refine ⟨?_, ?_, ?_, ?_⟩
  · intro status body text h1 h2 h3 hle
    simp only [pollLoop, if_neg (Nat.not_lt.mpr hle), if_pos h1, h2, h3]
    rw [if_pos trivial]
  · intro status body text h1 h2 h3 hle
    simp only [pollLoop, if_neg (Nat.not_lt.mpr hle), if_pos h1, h2, h3]
    rw [if_pos trivial, if_neg (by decide)]
  · intro r' rest' hr hle
    subst hr
    rw [pollLoop_head _ _ _ _ _ _ _ hle]
    have hms : max (max now slot + interval + 5) (slot + interval)
        = max now slot + interval + 5 := by
      have := le_max_right now slot
      exact max_eq_left (by omega)
    rw [hms]
  · intro r' rest' hr hle
    subst hr
    refine ⟨max (max now slot) (slot + interval), pollLoop_head _ _ _ _ _ _ _ hle, ?_⟩
    have := le_max_right now slot
    exact max_le (by omega) (by omega)

/-- Witness for C4: concrete pending and slow-down iterations at interval
2 starting at time 0 — the slow-down run resumes at time 7 = 0 + 2 + 5 and
its next send happens exactly there; the pending run's next send is within
one interval. -/
theorem C4_pending_slowdown_witness :
    pollLoop 2 300 []
        [.resp 200 (some (.obj [("error", .str "authorization_pending")])) "", .sendErr] 0 0
      = (.tokenSend 0 :: (pollLoop 2 300 [] [.sendErr] 0 2).1,
         (pollLoop 2 300 [] [.sendErr] 0 2).2)
    ∧ pollLoop 2 300 []
        [.resp 200 (some (.obj [("error", .str "slow_down")])) "", .sendErr] 0 0
      = (.tokenSend 0 :: (pollLoop 2 300 [] [.sendErr] 7 2).1,
         (pollLoop 2 300 [] [.sendErr] 7 2).2)
    ∧ (pollLoop 2 300 [] [.sendErr] 7 2).1.head? = some (.tokenSend 7)
    ∧ (∃ w, (pollLoop 2 300 [] [.sendErr] 0 2).1.head? = some (.tokenSend w) ∧ w ≤ 2) := by
  have h := C4_pending_slowdown 2 300 [] [.sendErr] 0 0
  exact ⟨h.1 200 (.obj [("error", .str "authorization_pending")]) ""
           (by decide) (by decide) (by decide) (by decide),
         h.2.1 200 (.obj [("error", .str "slow_down")]) ""
           (by decide) (by decide) (by decide) (by decide),
         h.2.2.1 .sendErr [] rfl (by decide),
         h.2.2.2 .sendErr [] rfl (by decide)⟩

/-! Claim C7: missing mandatory device-code fields (code bug). -/

/-- C7: evaluating the device-code parse at malformed provider responses.
A success response whose JSON body lacks `user_code` makes the handler
panic (the `unwrap` of `None`) with no event emitted at all — it does not
end the attempt in a reported `Terminal(Failed)` failure outcome, contrary
to the specified behavior; the same happens for a missing
`verification_uri` or `device_code`.  A missing `interval` does default
to 5 seconds as claimed. -/
theorem C7_missing_field_panics :
    handle_copilot_auth
        { t0 := 0, device := .resp 200 (some (.obj [])), tokens := [], exchange := [] }
      = ([], .panicked "user_code")
    ∧ countComplete (handle_copilot_auth
        { t0 := 0, device := .resp 200 (some (.obj [])), tokens := [], exchange := [] }).1
      = 0
    ∧ parseDevice (.resp 200 (some (.obj
        [("user_code", .str "U"), ("device_code", .str "D")])))
      = .panicked "verification_uri"
    ∧ parseDevice (.resp 200 (some (.obj
        [("user_code", .str "U"), ("verification_uri", .str "V")])))
      = .panicked "device_code"
    ∧ parseDevice (.resp 200 (some (.obj
        [("user_code", .str "U"), ("verification_uri", .str "V"),
         ("device_code", .str "D")])))
      = .grant "U" "V" "D" 5 :=
  ⟨rfl, rfl, rfl, rfl, rfl⟩

/-! Claim C8: one AuthComplete per terminal state (corrected). -/

/-- C8 (counterexample): an attempt that ends by transport-level failure
of the very first token poll terminates (the handler returns `Err`) with
zero `AuthComplete` events — not exactly one as claimed. -/
theorem C8_transport_failure_counterexample :
    (handle_copilot_auth
        { t0 := 0,
          device := .resp 200 (some (.obj
            [("user_code", .str "UC"), ("verification_uri", .str "VU"),
             ("device_code", .str "DC")])),
          tokens := [.sendErr], exchange := [] }).2 = .codexErr
    ∧ countComplete (handle_copilot_auth
        { t0 := 0,
          device := .resp 200 (some (.obj
            [("user_code", .str "UC"), ("verification_uri", .str "VU"),
             ("device_code", .str "DC")])),
          tokens := [.sendErr], exchange := [] }).1 = 0 :=
  ⟨rfl, rfl⟩

/-- C8 (amended): every run of the handler that returns normally — i.e.
reaches one of the in-protocol terminal states Success, Denied, Expired or
reported Failed — emits exactly one `AuthComplete` event; a run that ends
by a propagated transport or body-parse error, by a panic, or by script
exhaustion emits none. -/
theorem C8_auth_complete_exactly_once (s : Script) :
    countComplete (handle_copilot_auth s).1
      = if (handle_copilot_auth s).2 = .normal then 1 else 0 := by
  unfold handle_copilot_auth
  cases parseDevice s.device with
  | codexErr => simp [countComplete]
  | panicked f => simp [countComplete]
  | grant u vu dc i =>
    simp only
    exact countComplete_pollLoop _ _ _ _ _ _
